import Mathlib

/-!
Verification development for the AttestFHE contract (the Solidity contract
embedded in the repository). The contract is shallowly embedded: storage is a
Lean structure, every public function is a Lean function from the pre-state and
the call arguments to either a revert error or a post-state with its emitted
events. EVM revert semantics (a reverted call leaves storage untouched) is
encoded by the transaction wrapper applyOp, which keeps the pre-state on error.
uint256 values are modelled as Nat; addresses are Nat.
-/

namespace AttestFHE

/-- A batch record, mirroring the Solidity struct Batch
(id, active, createdAt, closedAt). A Solidity mapping returns the
all-zero struct for an absent key. -/
structure Batch where
  id : Nat
  active : Bool
  createdAt : Nat
  closedAt : Nat
deriving DecidableEq

/-- The all-zero Batch value a Solidity mapping yields for an absent key. -/
def defaultBatch : Batch := ⟨0, false, 0, 0⟩

/-- Mirrors the Solidity struct DecryptionContext (batchId, stateHash, processed). -/
structure DecryptionContext where
  batchId : Nat
  stateHash : Nat
  processed : Bool
deriving DecidableEq

/-- The all-zero DecryptionContext a Solidity mapping yields for an absent key. -/
def defaultContext : DecryptionContext := ⟨0, 0, false⟩

/-- An euint32 handle from the FHE coprocessor: its bytes32 handle value and
whether isInitialized() reports it initialized. -/
structure Ciph where
  handle : Nat
  initialized : Bool
deriving DecidableEq

/-- The revert reasons of the contract: its custom errors plus the two
require-with-message reverts (CooldownMustBePositive stands for the string
"Cooldown must be positive", FHEValueNotInitialized for
"FHE value not initialized"). -/
inductive ContractError where
  | NotOwner
  | NotProvider
  | PausedError
  | CooldownActive
  | BatchNotActive
  | InvalidBatch
  | ReplayAttempt
  | StateMismatch
  | DecryptionFailed
  | CooldownMustBePositive
  | FHEValueNotInitialized
deriving DecidableEq

/-- The events of the contract, in the order their fields appear in the source. -/
inductive Event where
  | OwnershipTransferred (previousOwner newOwner : Nat)
  | ProviderAdded (provider : Nat)
  | ProviderRemoved (provider : Nat)
  | PausedEv (account : Nat)
  | UnpausedEv (account : Nat)
  | CooldownSecondsUpdated (oldCooldown newCooldown : Nat)
  | BatchOpened (batchId timestamp : Nat)
  | BatchClosed (batchId timestamp : Nat)
  | AttestationSubmitted (provider batchId : Nat) (encryptedData : Nat)
  | DecryptionRequested (requestId batchId : Nat)
  | DecryptionCompleted (requestId batchId : Nat) (resultHash : List Nat)
deriving DecidableEq

/-- Contract storage. self is address(this) (fixed at deployment); mappings are
total functions defaulting to zero values, as in the EVM. -/
structure ContractState where
  self : Nat
  owner : Nat
  isProvider : Nat → Bool
  paused : Bool
  cooldownSeconds : Nat
  lastSubmissionTime : Nat → Nat
  lastDecryptionRequestTime : Nat → Nat
  currentBatchId : Nat
  batches : Nat → Batch
  decryptionContexts : Nat → DecryptionContext

/-- Pointwise mapping update, modelling a Solidity mapping store. -/
def updF {α : Type} (m : Nat → α) (k : Nat) (v : α) : Nat → α :=
  fun i => if i = k then v else m i

/-- Injective numeric encoding of a ciphertext-handle list, used by the
keccak256 model below. -/
def encodeCtList : List Nat → Nat
  | [] => 0
  | a :: rest => Nat.pair a (encodeCtList rest) + 1

/-- Model of _hashCiphertexts: keccak256(abi.encode(cts, address(this))).
Modelled as an injective encoding whose output is never 0, standing for the
collision-resistance assumption on keccak256 (distinct inputs give distinct
digests, and no digest of interest equals the all-zero bytes32 default). -/
def hashCiphertexts (cts : List Nat) (self : Nat) : Nat :=
  Nat.pair (encodeCtList cts) self + 1

/-- The fixed placeholder ciphertext handle the source builds identically in
requestBatchValidation and in myCallback (euint32 dummy; asEuint32(0);
toBytes32()): a single deterministic bytes32 value, independent of any batch. -/
def dummyCiphertextHandle : Nat := 0

/-- The one-element placeholder ciphertext list (bytes32[] cts of length 1)
built by both requestBatchValidation and myCallback. -/
def placeholderCts : List Nat := [dummyCiphertextHandle]

/-- Every function returns either a revert reason or the post-state with the
events emitted during the call. -/
abbrev CallResult := Except ContractError (ContractState × List Event)

/-- _openNewBatch: increments currentBatchId, stores a fresh active batch with
createdAt = now and closedAt = 0, and emits BatchOpened. -/
def openNewBatch (s : ContractState) (now : Nat) : ContractState × List Event :=
  let newId := s.currentBatchId + 1
  let bs := updF s.batches newId (Batch.mk newId true now 0)
  ({ s with currentBatchId := newId, batches := bs },
   [Event.BatchOpened newId now])

/-- The constructor: deployer becomes owner, is registered as provider
(ProviderAdded emitted), cooldownSeconds is set to 60 and _openNewBatch opens
batch 1. selfAddr is address(this), now is block.timestamp at deployment. -/
def constructorFHE (selfAddr deployer now : Nat) : ContractState × List Event :=
  let s0 : ContractState :=
    { self := selfAddr
      owner := deployer
      isProvider := updF (fun _ => false) deployer true
      paused := false
      cooldownSeconds := 60
      lastSubmissionTime := fun _ => 0
      lastDecryptionRequestTime := fun _ => 0
      currentBatchId := 0
      batches := fun _ => defaultBatch
      decryptionContexts := fun _ => defaultContext }
  let r := openNewBatch s0 now
  (r.fst, Event.ProviderAdded deployer :: r.snd)

/-- transferOwnership(newOwner): onlyOwner; replaces the owner and emits
OwnershipTransferred(oldOwner, newOwner). -/
def transferOwnership (s : ContractState) (sender newOwner : Nat) : CallResult :=
  if sender ≠ s.owner then .error .NotOwner
  else .ok ({ s with owner := newOwner }, [Event.OwnershipTransferred s.owner newOwner])

/-- addProvider(provider): onlyOwner; sets the flag and emits ProviderAdded only
when the address was not already a provider. -/
def addProvider (s : ContractState) (sender provider : Nat) : CallResult :=
  if sender ≠ s.owner then .error .NotOwner
  else if s.isProvider provider = false then
    .ok ({ s with isProvider := updF s.isProvider provider true }, [Event.ProviderAdded provider])
  else .ok (s, [])

/-- removeProvider(provider): onlyOwner; clears the flag and emits
ProviderRemoved only when the address was a provider. -/
def removeProvider (s : ContractState) (sender provider : Nat) : CallResult :=
  if sender ≠ s.owner then .error .NotOwner
  else if s.isProvider provider then
    .ok ({ s with isProvider := updF s.isProvider provider false }, [Event.ProviderRemoved provider])
  else .ok (s, [])

/-- pause(): onlyOwner whenNotPaused; sets the flag and emits Paused. -/
def pause (s : ContractState) (sender : Nat) : CallResult :=
  if sender ≠ s.owner then .error .NotOwner
  else if s.paused then .error .PausedError
  else .ok ({ s with paused := true }, [Event.PausedEv sender])

/-- unpause(): onlyOwner; clears the flag and emits Unpaused. -/
def unpause (s : ContractState) (sender : Nat) : CallResult :=
  if sender ≠ s.owner then .error .NotOwner
  else .ok ({ s with paused := false }, [Event.UnpausedEv sender])

/-- setCooldownSeconds(newCooldown): onlyOwner; require(newCooldown > 0); emits
CooldownSecondsUpdated(old, new). Note the source has no whenNotPaused here. -/
def setCooldownSeconds (s : ContractState) (sender newCooldown : Nat) : CallResult :=
  if sender ≠ s.owner then .error .NotOwner
  else if newCooldown = 0 then .error .CooldownMustBePositive
  else .ok ({ s with cooldownSeconds := newCooldown }, [Event.CooldownSecondsUpdated s.cooldownSeconds newCooldown])

/-- closeCurrentBatch(): onlyOwner; InvalidBatch if the current batch record has
id 0, BatchNotActive if it is not active; otherwise marks it inactive with
closedAt = now, emits BatchClosed, then _openNewBatch opens the next batch in
the same call. Note the source has no whenNotPaused here. -/
def closeCurrentBatch (s : ContractState) (sender now : Nat) : CallResult :=
  if sender ≠ s.owner then .error .NotOwner
  else
    let batch := s.batches s.currentBatchId
    if batch.id = 0 then .error .InvalidBatch
    else if batch.active = false then .error .BatchNotActive
    else
      let closedBatch := { batch with active := false, closedAt := now }
      let s1 := { s with batches := updF s.batches s.currentBatchId closedBatch }
      let r := openNewBatch s1 now
      .ok (r.fst, Event.BatchClosed s.currentBatchId now :: r.snd)

/-- submitAttestation(encryptedData): onlyProvider whenNotPaused
respectCooldown (the modifier compares now against
lastSubmissionTime[sender] + cooldownSeconds); then requires the euint32 to be
initialized, records lastSubmissionTime[sender] = now, requires the current
batch active (BatchNotActive otherwise — on the EVM this revert rolls the
timestamp write back), and emits AttestationSubmitted. No per-batch ciphertext
list is stored; the emitted event is the only record of the submission. -/
def submitAttestation (s : ContractState) (sender now : Nat) (encryptedData : Ciph) : CallResult :=
  if s.isProvider sender = false then .error .NotProvider
  else if s.paused then .error .PausedError
  else if now < s.lastSubmissionTime sender + s.cooldownSeconds then .error .CooldownActive
  else if encryptedData.initialized = false then .error .FHEValueNotInitialized
  else
    let s1 := { s with lastSubmissionTime := updF s.lastSubmissionTime sender now }
    if (s1.batches s1.currentBatchId).active = false then .error .BatchNotActive
    else .ok (s1, [Event.AttestationSubmitted sender s1.currentBatchId encryptedData.handle])

/-- requestBatchValidation(batchId): onlyOwner whenNotPaused respectCooldown
(the shared modifier reads lastSubmissionTime, not lastDecryptionRequestTime);
InvalidBatch when batchId is 0, or at least currentBatchId, or the stored
closedAt is 0; otherwise records lastDecryptionRequestTime[sender] = now,
hashes the fixed placeholder ciphertext list, stores the DecryptionContext
under the bridge-assigned freshRequestId (FHE.requestDecryption), and emits
DecryptionRequested. -/
def requestBatchValidation (s : ContractState) (sender now batchId freshRequestId : Nat) : CallResult :=
  if sender ≠ s.owner then .error .NotOwner
  else if s.paused then .error .PausedError
  else if now < s.lastSubmissionTime sender + s.cooldownSeconds then .error .CooldownActive
  else if batchId = 0 ∨ s.currentBatchId ≤ batchId ∨ (s.batches batchId).closedAt = 0 then
    .error .InvalidBatch
  else
    let s1 := { s with lastDecryptionRequestTime := updF s.lastDecryptionRequestTime sender now }
    let stateHash := hashCiphertexts placeholderCts s.self
    let ctxs := updF s1.decryptionContexts freshRequestId (DecryptionContext.mk batchId stateHash false)
    .ok ({ s1 with decryptionContexts := ctxs },
         [Event.DecryptionRequested freshRequestId batchId])

/-- myCallback(requestId, cleartexts, proof): no caller guards. ReplayAttempt
when the stored context is already processed; rebuilds the same placeholder
ciphertext list, StateMismatch when its hash differs from the stored stateHash;
DecryptionFailed when the oracle signature check fails (proofValid models
FHE.checkSignatures succeeding) or cleartexts is not 32 bytes; otherwise marks
the context processed and emits DecryptionCompleted. -/
def myCallback (s : ContractState) (requestId : Nat) (cleartexts : List Nat) (proofValid : Bool) : CallResult :=
  if (s.decryptionContexts requestId).processed then .error .ReplayAttempt
  else
    let currentHash := hashCiphertexts placeholderCts s.self
    if currentHash ≠ (s.decryptionContexts requestId).stateHash then .error .StateMismatch
    else if proofValid = false then .error .DecryptionFailed
    else if cleartexts.length ≠ 32 then .error .DecryptionFailed
    else
      let ctx := s.decryptionContexts requestId
      let doneCtx := { ctx with processed := true }
      let ctxs := updF s.decryptionContexts requestId doneCtx
      .ok ({ s with decryptionContexts := ctxs },
           [Event.DecryptionCompleted requestId ctx.batchId cleartexts])

/-- One external call to the contract, with its caller, block timestamp where
the function reads it, and arguments. The freshRequestId of requestValidation
is the id returned by the oracle bridge (unique per call in the real bridge). -/
inductive Op where
  | transferOwner (sender newOwner : Nat)
  | addProv (sender provider : Nat)
  | removeProv (sender provider : Nat)
  | doPause (sender : Nat)
  | doUnpause (sender : Nat)
  | setCooldown (sender newCooldown : Nat)
  | closeBatch (sender now : Nat)
  | submit (sender now : Nat) (encryptedData : Ciph)
  | requestValidation (sender now batchId freshRequestId : Nat)
  | callback (requestId : Nat) (cleartexts : List Nat) (proofValid : Bool)

/-- Dispatch one call to the corresponding contract function. -/
def runOp (s : ContractState) (op : Op) : CallResult :=
  match op with
  | .transferOwner sender newOwner => transferOwnership s sender newOwner
  | .addProv sender provider => addProvider s sender provider
  | .removeProv sender provider => removeProvider s sender provider
  | .doPause sender => pause s sender
  | .doUnpause sender => unpause s sender
  | .setCooldown sender newCooldown => setCooldownSeconds s sender newCooldown
  | .closeBatch sender now => closeCurrentBatch s sender now
  | .submit sender now encryptedData => submitAttestation s sender now encryptedData
  | .requestValidation sender now batchId freshRequestId =>
      requestBatchValidation s sender now batchId freshRequestId
  | .callback requestId cleartexts proofValid => myCallback s requestId cleartexts proofValid

/-- EVM transaction semantics: a successful call commits its post-state, a
reverted call leaves storage exactly as it was. -/
def postState (s : ContractState) (r : CallResult) : ContractState :=
  match r with
  | .ok p => p.fst
  | .error _ => s

/-- The storage after executing one call against state s. -/
def applyOp (s : ContractState) (op : Op) : ContractState :=
  postState s (runOp s op)

/-- The revert reason of a call result, if any. -/
def errOf (r : CallResult) : Option ContractError :=
  match r with
  | .ok _ => none
  | .error e => some e

/-- The events emitted by a call result (none when it reverted). -/
def eventsOf (r : CallResult) : List Event :=
  match r with
  | .ok p => p.snd
  | .error _ => []

/-- States reachable from some deployment by any sequence of external calls. -/
inductive Reachable : ContractState → Prop where
  | init (selfAddr deployer now : Nat) : Reachable (constructorFHE selfAddr deployer now).fst
  | step (s : ContractState) (op : Op) : Reachable s → Reachable (applyOp s op)

/-- The batch-ledger invariant: the current batch id is at least 1, a batch is
active exactly when it is the current one, every batch from 1 to the current id
stores its own id (so ids are 1,2,... with none skipped or reused), and no
record exists beyond the current id or at id 0. -/
def BatchInv (s : ContractState) : Prop :=
  1 ≤ s.currentBatchId ∧
  (∀ b, (s.batches b).active = true ↔ b = s.currentBatchId) ∧
  (∀ b, 1 ≤ b → b ≤ s.currentBatchId → (s.batches b).id = b) ∧
  (∀ b, s.currentBatchId < b → s.batches b = defaultBatch) ∧
  s.batches 0 = defaultBatch

/-- Deployment used by the concrete witnesses: address(this) = 0, deployer 1,
deployed at timestamp 0. -/
def sInit : ContractState := (constructorFHE 0 1 0).fst

/-- sInit after the owner paused the contract. -/
def sPaused : ContractState := applyOp sInit (Op.doPause 1)

/-- sInit after the owner closed batch 1 at time 10 (batch 2 now active). -/
def sClosed : ContractState := applyOp sInit (Op.closeBatch 1 10)

/-- sClosed after the owner submitted an attestation at time 100. -/
def sSub : ContractState := applyOp sClosed (Op.submit 1 100 (Ciph.mk 9 true))

/-- sClosed after the owner requested validation of batch 1 at time 100 with
bridge-assigned request id 7. -/
def sReq : ContractState := applyOp sClosed (Op.requestValidation 1 100 1 7)

/-- sReq after a further attestation was submitted at time 200 (into batch 2),
between the decryption request and its callback. -/
def sReqSub : ContractState := applyOp sReq (Op.submit 1 200 (Ciph.mk 9 true))

/-- A 32-byte cleartext payload, as the callback expects. -/
def cl32 : List Nat := List.replicate 32 0

/-- The storage closeCurrentBatch commits when it succeeds: the current batch
closed with closedAt = now, the next batch open and active, currentBatchId
advanced by one. -/
def closedState (s : ContractState) (now : Nat) : ContractState :=
  let closedBatch := { s.batches s.currentBatchId with active := false, closedAt := now }
  let bs := updF (updF s.batches s.currentBatchId closedBatch) (s.currentBatchId + 1) (Batch.mk (s.currentBatchId + 1) true now 0)
  { s with batches := bs, currentBatchId := s.currentBatchId + 1 }

theorem updF_same {α : Type} (m : Nat → α) (k : Nat) (v : α) : updF m k v k = v := by
  simp [updF]

theorem updF_other {α : Type} (m : Nat → α) (k : Nat) (v : α) (i : Nat) (h : i ≠ k) :
    updF m k v i = m i := by
  simp [updF, h]

/-- Shape of a successful closeCurrentBatch call: the current batch is closed
with closedAt = now, the next batch is opened active, the current id advances
by one, every other storage field is untouched, and BatchClosed/BatchOpened are
emitted in that order. -/
theorem closeCurrentBatch_ok (s : ContractState) (sender now : Nat)
    (r : ContractState × List Event) (h : closeCurrentBatch s sender now = Except.ok r) :
    r.fst.currentBatchId = s.currentBatchId + 1 ∧
    r.fst.batches = updF (updF s.batches s.currentBatchId ({ s.batches s.currentBatchId with active := false, closedAt := now })) (s.currentBatchId + 1) (Batch.mk (s.currentBatchId + 1) true now 0) ∧
    r.fst.self = s.self ∧
    r.fst.owner = s.owner ∧
    r.fst.isProvider = s.isProvider ∧
    r.fst.paused = s.paused ∧
    r.fst.cooldownSeconds = s.cooldownSeconds ∧
    r.fst.lastSubmissionTime = s.lastSubmissionTime ∧
    r.fst.lastDecryptionRequestTime = s.lastDecryptionRequestTime ∧
    r.fst.decryptionContexts = s.decryptionContexts ∧
    r.snd = [Event.BatchClosed s.currentBatchId now, Event.BatchOpened (s.currentBatchId + 1) now] := by
  simp only [closeCurrentBatch, openNewBatch] at h
  split at h
  · simp at h
  · split at h
    · simp at h
    · split at h
      · simp at h
      · simp only [Except.ok.injEq] at h
        subst h
        exact ⟨rfl, rfl, rfl, rfl, rfl, rfl, rfl, rfl, rfl, rfl, rfl⟩

/-- Every operation either leaves the batch table and the current batch id
unchanged, or (a successful closeCurrentBatch) closes the current batch and
opens the next one. -/
theorem apply_batches_shape (s : ContractState) (op : Op) :
    ((applyOp s op).batches = s.batches ∧ (applyOp s op).currentBatchId = s.currentBatchId) ∨
    (∃ now, (applyOp s op).currentBatchId = s.currentBatchId + 1 ∧
      (applyOp s op).batches = updF (updF s.batches s.currentBatchId ({ s.batches s.currentBatchId with active := false, closedAt := now })) (s.currentBatchId + 1) (Batch.mk (s.currentBatchId + 1) true now 0)) := by
  cases h : runOp s op with
  | error e =>
    left
    simp [applyOp, postState, h]
  | ok r =>
    have happ : applyOp s op = r.fst := by simp [applyOp, postState, h]
    cases op with
    | closeBatch a b =>
      right
      obtain ⟨h1, h2, -⟩ := closeCurrentBatch_ok s a b r h
      exact ⟨b, by rw [happ]; exact h1, by rw [happ]; exact h2⟩
    | transferOwner a b =>
      left
      rw [happ]
      simp only [runOp, transferOwnership] at h
      split at h
      · simp at h
      · simp only [Except.ok.injEq] at h
        subst h
        exact ⟨rfl, rfl⟩
    | addProv a b =>
      left
      rw [happ]
      simp only [runOp, addProvider] at h
      split at h
      · simp at h
      · split at h
        · simp only [Except.ok.injEq] at h
          subst h
          exact ⟨rfl, rfl⟩
        · simp only [Except.ok.injEq] at h
          subst h
          exact ⟨rfl, rfl⟩
    | removeProv a b =>
      left
      rw [happ]
      simp only [runOp, removeProvider] at h
      split at h
      · simp at h
      · split at h
        · simp only [Except.ok.injEq] at h
          subst h
          exact ⟨rfl, rfl⟩
        · simp only [Except.ok.injEq] at h
          subst h
          exact ⟨rfl, rfl⟩
    | doPause a =>
      left
      rw [happ]
      simp only [runOp, pause] at h
      split at h
      · simp at h
      · split at h
        · simp at h
        · simp only [Except.ok.injEq] at h
          subst h
          exact ⟨rfl, rfl⟩
    | doUnpause a =>
      left
      rw [happ]
      simp only [runOp, unpause] at h
      split at h
      · simp at h
      · simp only [Except.ok.injEq] at h
        subst h
        exact ⟨rfl, rfl⟩
    | setCooldown a b =>
      left
      rw [happ]
      simp only [runOp, setCooldownSeconds] at h
      split at h
      · simp at h
      · split at h
        · simp at h
        · simp only [Except.ok.injEq] at h
          subst h
          exact ⟨rfl, rfl⟩
    | submit a b c =>
      left
      rw [happ]
      simp only [runOp, submitAttestation] at h
      split at h
      · simp at h
      · split at h
        · simp at h
        · split at h
          · simp at h
          · split at h
            · simp at h
            · split at h
              · simp at h
              · simp only [Except.ok.injEq] at h
                subst h
                exact ⟨rfl, rfl⟩
    | requestValidation a b c d =>
      left
      rw [happ]
      simp only [runOp, requestBatchValidation] at h
      split at h
      · simp at h
      · split at h
        · simp at h
        · split at h
          · simp at h
          · split at h
            · simp at h
            · simp only [Except.ok.injEq] at h
              subst h
              exact ⟨rfl, rfl⟩
    | callback a b c =>
      left
      rw [happ]
      simp only [runOp, myCallback] at h
      split at h
      · simp at h
      · split at h
        · simp at h
        · split at h
          · simp at h
          · split at h
            · simp at h
            · simp only [Except.ok.injEq] at h
              subst h
              exact ⟨rfl, rfl⟩

/-- The batch invariant holds at deployment. -/
theorem batchInv_init (selfAddr deployer now : Nat) :
    BatchInv (constructorFHE selfAddr deployer now).fst := by
  refine ⟨le_refl 1, fun b => ?_, fun b hb1 hb2 => ?_, fun b hb => ?_, rfl⟩
  · by_cases e : b = 1
    · subst e
      simp [constructorFHE, openNewBatch, updF]
    · simp [constructorFHE, openNewBatch, updF, defaultBatch, e]
  · have e : b = 1 := by
      have : b ≤ 1 := hb2
      omega
    subst e
    simp [constructorFHE, openNewBatch, updF]
  · have e : b ≠ 1 := by
      have : 1 < b := hb
      omega
    simp [constructorFHE, openNewBatch, updF, defaultBatch, e]

/-- One step preserves the batch invariant. -/
theorem batchInv_step (s : ContractState) (op : Op) (ih : BatchInv s) :
    BatchInv (applyOp s op) := by
  rcases apply_batches_shape s op with ⟨hb, hc⟩ | ⟨now, hc, hb⟩
  · unfold BatchInv at ih ⊢
    rw [hb, hc]
    exact ih
  · obtain ⟨h1, h2, h3, h4, h5⟩ := ih
    unfold BatchInv
    rw [hb, hc]
    refine ⟨Nat.le_succ_of_le h1, ?_, ?_, ?_, ?_⟩
    · intro b
      by_cases e1 : b = s.currentBatchId + 1
      · subst e1
        simp [updF_same]
      · rw [updF_other _ _ _ _ e1]
        by_cases e2 : b = s.currentBatchId
        · subst e2
          rw [updF_same]
          simp only []
          constructor
          · intro hfalse
            simp at hfalse
          · intro heq
            exact absurd heq e1
        · rw [updF_other _ _ _ _ e2]
          constructor
          · intro hb2
            exact absurd ((h2 b).mp hb2) e2
          · intro hb2
            exact absurd hb2 e1
    · intro b hb1 hb2
      by_cases e1 : b = s.currentBatchId + 1
      · subst e1
        rw [updF_same]
      · rw [updF_other _ _ _ _ e1]
        by_cases e2 : b = s.currentBatchId
        · subst e2
          rw [updF_same]
          exact h3 s.currentBatchId hb1 (le_refl s.currentBatchId)
        · rw [updF_other _ _ _ _ e2]
          exact h3 b hb1 (by omega)
    · intro b hbgt
      have e1 : b ≠ s.currentBatchId + 1 := by omega
      have e2 : b ≠ s.currentBatchId := by omega
      rw [updF_other _ _ _ _ e1, updF_other _ _ _ _ e2]
      exact h4 b (by omega)
    · have e1 : (0 : Nat) ≠ s.currentBatchId + 1 := by omega
      have e2 : (0 : Nat) ≠ s.currentBatchId := by omega
      rw [updF_other _ _ _ _ e1, updF_other _ _ _ _ e2]
      exact h5

/-- The batch invariant holds in every reachable state. -/
theorem batchInv_reachable (s : ContractState) (h : Reachable s) : BatchInv s := by
  induction h with
  | init a d t => exact batchInv_init a d t
  | step s op hs ih => exact batchInv_step s op ih

/-- Claim C5: in every state reachable after construction, exactly one batch is
active (the current one), batch ids are assigned 1, 2, ... strictly increasing
with no id reused (the table stores batch b under key b for 1 ≤ b ≤
currentBatchId and nothing elsewhere), every operation including the
close-then-open of closeCurrentBatch preserves this, and no observable state
has zero active batches. -/
theorem c5_batch_invariant (s : ContractState) (h : Reachable s) :
    BatchInv s ∧
    ∃ b, (s.batches b).active = true ∧ ∀ b2, (s.batches b2).active = true → b2 = b := by
  have hinv := batchInv_reachable s h
  exact ⟨hinv, s.currentBatchId, (hinv.2.1 s.currentBatchId).mpr rfl,
    fun b2 hb2 => (hinv.2.1 b2).mp hb2⟩

/-- Witness for C5 at the concrete deployment sInit. -/
theorem c5_witness :
    BatchInv sInit ∧
    ∃ b, (sInit.batches b).active = true ∧ ∀ b2, (sInit.batches b2).active = true → b2 = b :=
  c5_batch_invariant sInit (Reachable.init 0 1 0)

/-- Claim C6: closeCurrentBatch, called by the owner while the current batch is
active, marks it inactive with closedAt = now and in the same call opens batch
previous + 1 active with createdAt = now; a submit immediately afterwards with
all gates passing is recorded (via its AttestationSubmitted event) against the
new batch id, never the just-closed one; and closeCurrentBatch fails with
BatchNotActive when the current batch is already closed. -/
theorem c6_close_then_open (s : ContractState) (sender now : Nat)
    (hown : sender = s.owner) (hid : (s.batches s.currentBatchId).id ≠ 0) :
    ((s.batches s.currentBatchId).active = false →
      closeCurrentBatch s sender now = Except.error ContractError.BatchNotActive) ∧
    ((s.batches s.currentBatchId).active = true →
      ∃ s2, closeCurrentBatch s sender now = Except.ok (s2, [Event.BatchClosed s.currentBatchId now, Event.BatchOpened (s.currentBatchId + 1) now]) ∧
        s2.currentBatchId = s.currentBatchId + 1 ∧
        s2.batches s.currentBatchId = { s.batches s.currentBatchId with active := false, closedAt := now } ∧
        s2.batches (s.currentBatchId + 1) = Batch.mk (s.currentBatchId + 1) true now 0 ∧
        ∀ p now2 c, s2.isProvider p = true → s2.paused = false →
          s2.lastSubmissionTime p + s2.cooldownSeconds ≤ now2 → c.initialized = true →
          ∃ s3, submitAttestation s2 p now2 c = Except.ok (s3, [Event.AttestationSubmitted p (s.currentBatchId + 1) c.handle])) := by
  constructor
  · intro hact
    unfold closeCurrentBatch
    rw [if_neg (by simp [hown])]
    simp only []
    rw [if_neg hid, if_pos hact]
  · intro hact
    have hcne : s.currentBatchId ≠ s.currentBatchId + 1 := by omega
    refine ⟨closedState s now, ?_, rfl, ?_, ?_, ?_⟩
    · unfold closeCurrentBatch openNewBatch closedState
      rw [if_neg (by simp [hown])]
      simp only []
      rw [if_neg hid, if_neg (by simp [hact])]
    · show updF (updF s.batches s.currentBatchId ({ s.batches s.currentBatchId with active := false, closedAt := now })) (s.currentBatchId + 1) (Batch.mk (s.currentBatchId + 1) true now 0) s.currentBatchId = _
      rw [updF_other _ _ _ _ hcne, updF_same]
    · show updF (updF s.batches s.currentBatchId ({ s.batches s.currentBatchId with active := false, closedAt := now })) (s.currentBatchId + 1) (Batch.mk (s.currentBatchId + 1) true now 0) (s.currentBatchId + 1) = _
      rw [updF_same]
    · intro p now2 c hp hpz hcd hcinit
      have hne : ¬ now2 < (closedState s now).lastSubmissionTime p + (closedState s now).cooldownSeconds :=
        Nat.not_lt.mpr hcd
      have hbat : ((closedState s now).batches (closedState s now).currentBatchId).active = true := by
        show (updF (updF s.batches s.currentBatchId ({ s.batches s.currentBatchId with active := false, closedAt := now })) (s.currentBatchId + 1) (Batch.mk (s.currentBatchId + 1) true now 0) (s.currentBatchId + 1)).active = true
        rw [updF_same]
      refine ⟨{ closedState s now with lastSubmissionTime := updF (closedState s now).lastSubmissionTime p now2 }, ?_⟩
      unfold submitAttestation
      rw [if_neg (by simp [hp]), if_neg (by simp [hpz]), if_neg hne, if_neg (by simp [hcinit])]
      simp only []
      rw [if_neg (by simp [hbat])]
      rfl

/-- Witness for C6: closing batch 1 of the fresh deployment at time 10 and then
submitting at time 70 records the attestation against batch 2. -/
theorem c6_witness :
    ∃ s2, closeCurrentBatch sInit 1 10 = Except.ok (s2, [Event.BatchClosed 1 10, Event.BatchOpened 2 10]) ∧
      s2.currentBatchId = 2 ∧
      ∃ s3, submitAttestation s2 1 70 (Ciph.mk 9 true) = Except.ok (s3, [Event.AttestationSubmitted 1 2 9]) := by
  obtain ⟨s2, hok, hcur, -, -, hsub⟩ := (c6_close_then_open sInit 1 10 rfl (by decide)).2 rfl
  obtain ⟨-, -, -, -, hprov, hpz, hcds, hlst, -⟩ :=
    closeCurrentBatch_ok sInit 1 10 (s2, [Event.BatchClosed 1 10, Event.BatchOpened 2 10]) hok
  refine ⟨s2, hok, hcur, hsub 1 70 (Ciph.mk 9 true) ?_ ?_ ?_ rfl⟩
  · rw [hprov]
    exact rfl
  · rw [hpz]
    exact rfl
  · rw [hlst, hcds]
    decide

/-- Claim C8: with the owner, pause and cooldown gates passing,
requestBatchValidation fails with InvalidBatch exactly when the batch id is 0,
or is at least the current batch id (including the open current batch), or the
referenced batch has no closedAt recorded; otherwise the precondition passes. -/
theorem c8_invalid_batch_iff (s : ContractState) (sender now bid rid : Nat)
    (hown : sender = s.owner) (hpz : s.paused = false)
    (hcd : s.lastSubmissionTime sender + s.cooldownSeconds ≤ now) :
    requestBatchValidation s sender now bid rid = Except.error ContractError.InvalidBatch ↔
      (bid = 0 ∨ s.currentBatchId ≤ bid ∨ (s.batches bid).closedAt = 0) := by
  have hne : ¬ now < s.lastSubmissionTime sender + s.cooldownSeconds := Nat.not_lt.mpr hcd
  unfold requestBatchValidation
  rw [if_neg (by simp [hown]), if_neg (by simp [hpz]), if_neg hne]
  split
  · rename_i hcond
    simp [hcond]
  · rename_i hcond
    simp [hcond]

/-- Witness for C8: batch id 0 is rejected with InvalidBatch after batch 1 was
closed. -/
theorem c8_witness :
    requestBatchValidation sClosed 1 70 0 7 = Except.error ContractError.InvalidBatch :=
  (c8_invalid_batch_iff sClosed 1 70 0 7 rfl rfl (by decide)).mpr (Or.inl rfl)

/-- Claim C9: every operation is atomic with respect to failure: a call that
reverts with any error commits nothing, so the observable post-state equals the
pre-state; in particular a rejected submit leaves the caller's
lastSubmissionTime unchanged (the source writes it before the BatchNotActive
check, but the revert rolls that write back), so a rejected call never consumes
the cooldown window. -/
theorem c9_atomic_failure (s : ContractState) (op : Op) (e : ContractError)
    (h : runOp s op = Except.error e) :
    applyOp s op = s ∧
    ∀ sender now c, op = Op.submit sender now c →
      (applyOp s op).lastSubmissionTime sender = s.lastSubmissionTime sender := by
  have hs : applyOp s op = s := by simp [applyOp, postState, h]
  exact ⟨hs, fun sender now c _ => by rw [hs]⟩

/-- Witness for C9: a submit rejected by the cooldown gate leaves the state, and
in particular the submission timestamp, untouched. -/
theorem c9_witness :
    runOp sInit (Op.submit 1 59 (Ciph.mk 9 true)) = Except.error ContractError.CooldownActive ∧
    applyOp sInit (Op.submit 1 59 (Ciph.mk 9 true)) = sInit ∧
    (applyOp sInit (Op.submit 1 59 (Ciph.mk 9 true))).lastSubmissionTime 1 = sInit.lastSubmissionTime 1 := by
  have h : runOp sInit (Op.submit 1 59 (Ciph.mk 9 true)) = Except.error ContractError.CooldownActive := rfl
  have hc := c9_atomic_failure sInit (Op.submit 1 59 (Ciph.mk 9 true)) ContractError.CooldownActive h
  exact ⟨h, hc.1, hc.2 1 59 (Ciph.mk 9 true) rfl⟩

/-- Claim C10: at construction the deployer becomes owner and is automatically
registered as a provider with a ProviderAdded notification emitted, the
cooldown interval starts at 60 seconds and batch 1 is opened active, so the
owner can submit attestations (at any block time at least 60, since
lastSubmissionTime starts at 0) without addProvider ever being called. -/
theorem c10_constructor (selfAddr deployer t : Nat) :
    (constructorFHE selfAddr deployer t).fst.owner = deployer ∧
    (constructorFHE selfAddr deployer t).fst.isProvider deployer = true ∧
    Event.ProviderAdded deployer ∈ (constructorFHE selfAddr deployer t).snd ∧
    (constructorFHE selfAddr deployer t).fst.cooldownSeconds = 60 ∧
    (constructorFHE selfAddr deployer t).fst.currentBatchId = 1 ∧
    (constructorFHE selfAddr deployer t).fst.batches 1 = Batch.mk 1 true t 0 ∧
    (constructorFHE selfAddr deployer t).fst.paused = false ∧
    ∀ t2 c, 60 ≤ t2 → c.initialized = true →
      ∃ s2, submitAttestation (constructorFHE selfAddr deployer t).fst deployer t2 c =
        Except.ok (s2, [Event.AttestationSubmitted deployer 1 c.handle]) := by
  have hprov : (constructorFHE selfAddr deployer t).fst.isProvider deployer = true := by
    show updF (fun _ => false) deployer true deployer = true
    rw [updF_same]
  have hbat : (constructorFHE selfAddr deployer t).fst.batches 1 = Batch.mk 1 true t 0 := by
    show updF (fun _ => defaultBatch) 1 (Batch.mk 1 true t 0) 1 = Batch.mk 1 true t 0
    rw [updF_same]
  refine ⟨rfl, hprov, ?_, rfl, rfl, hbat, rfl, ?_⟩
  · show Event.ProviderAdded deployer ∈ Event.ProviderAdded deployer :: [Event.BatchOpened 1 t]
    exact List.mem_cons_self _ _
  · intro t2 c ht hc
    have hne : ¬ t2 < (constructorFHE selfAddr deployer t).fst.lastSubmissionTime deployer + (constructorFHE selfAddr deployer t).fst.cooldownSeconds := by
      show ¬ t2 < 0 + 60
      omega
    refine ⟨{ (constructorFHE selfAddr deployer t).fst with lastSubmissionTime := updF (constructorFHE selfAddr deployer t).fst.lastSubmissionTime deployer t2 }, ?_⟩
    unfold submitAttestation
    rw [if_neg (by simp [hprov]), if_neg (by show ¬(false = true); simp), if_neg hne, if_neg (by simp [hc])]
    simp only []
    rw [if_neg (by show ¬(true = false); simp)]
    rfl

/-- Witness for C10 at the concrete deployment: the deployer (principal 1)
submits successfully at time 60 with no addProvider call. -/
theorem c10_witness :
    (constructorFHE 0 1 0).fst.owner = 1 ∧
    ∃ s2, submitAttestation (constructorFHE 0 1 0).fst 1 60 (Ciph.mk 9 true) =
      Except.ok (s2, [Event.AttestationSubmitted 1 1 9]) := by
  have h := c10_constructor 0 1 0
  exact ⟨h.1, h.2.2.2.2.2.2.2 60 (Ciph.mk 9 true) (by decide) rfl⟩

/-- The modelled content hash is never the zero bytes32 default. -/
theorem hashCiphertexts_ne_zero (cts : List Nat) (self : Nat) :
    hashCiphertexts cts self ≠ 0 :=
  Nat.succ_ne_zero (Nat.pair (encodeCtList cts) self)

/-- Once a stored decryption context is marked processed, no operation clears
the flag, provided no later decryption request reuses the same bridge-assigned
request id (the real bridge returns a fresh id on every call). -/
theorem processed_monotone (s : ContractState) (op : Op) (rid : Nat)
    (hfresh : ∀ a b c, op ≠ Op.requestValidation a b c rid)
    (h : (s.decryptionContexts rid).processed = true) :
    ((applyOp s op).decryptionContexts rid).processed = true := by
  cases hr : runOp s op with
  | error e =>
    simpa [applyOp, postState, hr] using h
  | ok r =>
    have happ : applyOp s op = r.fst := by simp [applyOp, postState, hr]
    rw [happ]
    cases op with
    | closeBatch a b =>
      obtain ⟨-, -, -, -, -, -, -, -, -, hctx, -⟩ := closeCurrentBatch_ok s a b r hr
      rw [hctx]
      exact h
    | transferOwner a b =>
      simp only [runOp, transferOwnership] at hr
      split at hr
      · simp at hr
      · simp only [Except.ok.injEq] at hr
        subst hr
        exact h
    | addProv a b =>
      simp only [runOp, addProvider] at hr
      split at hr
      · simp at hr
      · split at hr
        · simp only [Except.ok.injEq] at hr
          subst hr
          exact h
        · simp only [Except.ok.injEq] at hr
          subst hr
          exact h
    | removeProv a b =>
      simp only [runOp, removeProvider] at hr
      split at hr
      · simp at hr
      · split at hr
        · simp only [Except.ok.injEq] at hr
          subst hr
          exact h
        · simp only [Except.ok.injEq] at hr
          subst hr
          exact h
    | doPause a =>
      simp only [runOp, pause] at hr
      split at hr
      · simp at hr
      · split at hr
        · simp at hr
        · simp only [Except.ok.injEq] at hr
          subst hr
          exact h
    | doUnpause a =>
      simp only [runOp, unpause] at hr
      split at hr
      · simp at hr
      · simp only [Except.ok.injEq] at hr
        subst hr
        exact h
    | setCooldown a b =>
      simp only [runOp, setCooldownSeconds] at hr
      split at hr
      · simp at hr
      · split at hr
        · simp at hr
        · simp only [Except.ok.injEq] at hr
          subst hr
          exact h
    | submit a b c =>
      simp only [runOp, submitAttestation] at hr
      split at hr
      · simp at hr
      · split at hr
        · simp at hr
        · split at hr
          · simp at hr
          · split at hr
            · simp at hr
            · split at hr
              · simp at hr
              · simp only [Except.ok.injEq] at hr
                subst hr
                exact h
    | requestValidation a b c d =>
      have hd : rid ≠ d := by
        intro he
        exact hfresh a b c (by rw [he])
      simp only [runOp, requestBatchValidation] at hr
      split at hr
      · simp at hr
      · split at hr
        · simp at hr
        · split at hr
          · simp at hr
          · split at hr
            · simp at hr
            · simp only [Except.ok.injEq] at hr
              subst hr
              show ((updF s.decryptionContexts d (DecryptionContext.mk c (hashCiphertexts placeholderCts s.self) false)) rid).processed = true
              rw [updF_other _ _ _ _ hd]
              exact h
    | callback a b c =>
      simp only [runOp, myCallback] at hr
      split at hr
      · simp at hr
      · split at hr
        · simp at hr
        · split at hr
          · simp at hr
          · split at hr
            · simp at hr
            · simp only [Except.ok.injEq] at hr
              subst hr
              by_cases he : rid = a
              · subst he
                show ((updF s.decryptionContexts rid ({ s.decryptionContexts rid with processed := true })) rid).processed = true
                rw [updF_same]
              · show ((updF s.decryptionContexts a ({ s.decryptionContexts a with processed := true })) rid).processed = true
                rw [updF_other _ _ _ _ he]
                exact h

/-- Claim C1 counterexample: for request id 5 of the fresh deployment, for
which no DecryptionRequest record was ever stored, the callback fails with
StateMismatch, not with ReplayAttempt as the claim requires. -/
theorem c1_counterexample :
    myCallback sInit 5 cl32 true = Except.error ContractError.StateMismatch ∧
    myCallback sInit 5 cl32 true ≠ Except.error ContractError.ReplayAttempt := by
  have h : myCallback sInit 5 cl32 true = Except.error ContractError.StateMismatch := rfl
  refine ⟨h, ?_⟩
  rw [h]
  intro hc
  injection hc with h2
  exact absurd h2 (by decide)

/-- Claim C1 (amended): a callback on a requestId whose stored record is
processed fails with ReplayAttempt; a callback on a requestId for which no
record was ever stored (the mapping still holds the zero default) fails with
StateMismatch, because the recomputed content hash is never the zero default;
a first callback on a stored unprocessed record with a valid proof and 32-byte
cleartexts succeeds and sets processed, after which any repeated callback for
that requestId fails with ReplayAttempt regardless of proof validity, the flag
being preserved by every operation (bridge-assigned ids never reused). -/
theorem c1_amended (s : ContractState) (rid : Nat) (cl : List Nat) (pv : Bool) :
    ((s.decryptionContexts rid).processed = true →
      myCallback s rid cl pv = Except.error ContractError.ReplayAttempt) ∧
    (s.decryptionContexts rid = defaultContext →
      myCallback s rid cl pv = Except.error ContractError.StateMismatch) ∧
    (∀ bid, s.decryptionContexts rid = DecryptionContext.mk bid (hashCiphertexts placeholderCts s.self) false →
      pv = true → cl.length = 32 →
      ∃ s2, myCallback s rid cl pv = Except.ok (s2, [Event.DecryptionCompleted rid bid cl]) ∧
        (s2.decryptionContexts rid).processed = true ∧
        ∀ cl2 pv2, myCallback s2 rid cl2 pv2 = Except.error ContractError.ReplayAttempt) ∧
    (∀ op, (∀ a b c, op ≠ Op.requestValidation a b c rid) →
      (s.decryptionContexts rid).processed = true →
      ((applyOp s op).decryptionContexts rid).processed = true) := by
  refine ⟨?_, ?_, ?_, fun op hf hp => processed_monotone s op rid hf hp⟩
  · intro h
    unfold myCallback
    rw [if_pos h]
  · intro h
    unfold myCallback
    rw [if_neg (by simp [h, defaultContext])]
    simp only []
    rw [if_pos (by rw [h]; exact hashCiphertexts_ne_zero placeholderCts s.self)]
  · intro bid h hpv hlen
    have hstep : myCallback s rid cl pv = Except.ok ({ s with decryptionContexts := updF s.decryptionContexts rid (DecryptionContext.mk bid (hashCiphertexts placeholderCts s.self) true) }, [Event.DecryptionCompleted rid bid cl]) := by
      unfold myCallback
      rw [if_neg (by simp [h])]
      simp only []
      rw [if_neg (by rw [h]; simp), if_neg (by simp [hpv]), if_neg (by simp [hlen])]
      rw [h]
    refine ⟨_, hstep, ?_, ?_⟩
    · show (updF s.decryptionContexts rid (DecryptionContext.mk bid (hashCiphertexts placeholderCts s.self) true) rid).processed = true
      rw [updF_same]
    · intro cl2 pv2
      unfold myCallback
      rw [if_pos (by show (updF s.decryptionContexts rid (DecryptionContext.mk bid (hashCiphertexts placeholderCts s.self) true) rid).processed = true; rw [updF_same])]

/-- Witness for C1 (amended) on the stored request 7 of sReq: the first
callback succeeds and every repetition replays. -/
theorem c1_witness :
    ∃ s2, myCallback sReq 7 cl32 true = Except.ok (s2, [Event.DecryptionCompleted 7 1 cl32]) ∧
      (s2.decryptionContexts 7).processed = true ∧
      ∀ cl2 pv2, myCallback s2 7 cl2 pv2 = Except.error ContractError.ReplayAttempt :=
  (c1_amended sReq 7 cl32 true).2.2.1 1 rfl rfl rfl

/-- Claim C2 names the intended state-hash re-derivation, but the code hashes
the same fixed placeholder list on both sides (code bug): after the stored
validation request for batch 1 (sReq), a further attestation is submitted
before the callback, yet the callback succeeds instead of failing with
StateMismatch; no live per-batch ciphertext list is recorded or hashed. -/
theorem c2_code_behavior :
    errOf (submitAttestation sReq 1 200 (Ciph.mk 9 true)) = none ∧
    errOf (myCallback sReqSub 7 cl32 true) = none ∧
    myCallback sReqSub 7 cl32 true ≠ Except.error ContractError.StateMismatch := by
  refine ⟨rfl, rfl, ?_⟩
  intro hc
  have h2 : errOf (myCallback sReqSub 7 cl32 true) = some ContractError.StateMismatch := by
    rw [hc]
    rfl
  have h3 : errOf (myCallback sReqSub 7 cl32 true) = none := rfl
  rw [h3] at h2
  exact Option.noConfusion h2

/-- Claim C3 describes the intended per-operation-kind cooldown, but the shared
respectCooldown modifier reads lastSubmissionTime even for decryption requests,
and lastDecryptionRequestTime is written yet never read (code bug): after a
submission at time 100 a validation request at time 130 reverts CooldownActive
although the caller's lastDecryptionRequestTime window (0 + 60) has elapsed,
and after a validation request at time 100 a second one at time 110 passes
although the claimed window (100 + 60) has not elapsed. -/
theorem c3_code_behavior :
    errOf (requestBatchValidation sSub 1 130 1 7) = some ContractError.CooldownActive ∧
    sSub.lastDecryptionRequestTime 1 + sSub.cooldownSeconds ≤ 130 ∧
    errOf (requestBatchValidation sReq 1 110 1 8) = none ∧
    110 < sReq.lastDecryptionRequestTime 1 + sReq.cooldownSeconds :=
  ⟨rfl, by decide, rfl, by decide⟩

/-- Claim C4 counterexample: with the pause flag set, closeCurrentBatch and
setCooldownSeconds succeed and mutate state instead of failing with
PausedError. -/
theorem c4_counterexample :
    sPaused.paused = true ∧
    errOf (closeCurrentBatch sPaused 1 20) = none ∧
    errOf (setCooldownSeconds sPaused 1 30) = none ∧
    eventsOf (closeCurrentBatch sPaused 1 20) = [Event.BatchClosed 1 20, Event.BatchOpened 2 20] :=
  ⟨rfl, rfl, rfl, rfl⟩

/-- Claim C4 (amended): only submitAttestation and requestBatchValidation are
gated on the pause flag and fail with PausedError while paused (pause itself
also requires not-paused); closeCurrentBatch, setCooldownSeconds, the
decryption callback, and the AccessRegistry operations carry no pause gate and
never fail with PausedError. -/
theorem c4_amended (s : ContractState) (sender now bid rid nc newOwner p : Nat) (c : Ciph) (cl : List Nat) (pv : Bool) (hpz : s.paused = true) :
    (s.isProvider sender = true → submitAttestation s sender now c = Except.error ContractError.PausedError) ∧
    (sender = s.owner → requestBatchValidation s sender now bid rid = Except.error ContractError.PausedError) ∧
    errOf (closeCurrentBatch s sender now) ≠ some ContractError.PausedError ∧
    errOf (setCooldownSeconds s sender nc) ≠ some ContractError.PausedError ∧
    errOf (myCallback s rid cl pv) ≠ some ContractError.PausedError ∧
    errOf (transferOwnership s sender newOwner) ≠ some ContractError.PausedError ∧
    errOf (addProvider s sender p) ≠ some ContractError.PausedError ∧
    errOf (removeProvider s sender p) ≠ some ContractError.PausedError := by
  refine ⟨?_, ?_, ?_, ?_, ?_, ?_, ?_, ?_⟩
  · intro hp
    unfold submitAttestation
    rw [if_neg (by simp [hp]), if_pos hpz]
  · intro hown
    unfold requestBatchValidation
    rw [if_neg (by simp [hown]), if_pos hpz]
  · simp only [closeCurrentBatch]
    repeat' split
    all_goals simp [errOf]
  · simp only [setCooldownSeconds]
    repeat' split
    all_goals simp [errOf]
  · simp only [myCallback]
    repeat' split
    all_goals simp [errOf]
  · simp only [transferOwnership]
    repeat' split
    all_goals simp [errOf]
  · simp only [addProvider]
    repeat' split
    all_goals simp [errOf]
  · simp only [removeProvider]
    repeat' split
    all_goals simp [errOf]

/-- Witness for C4 (amended) in the concrete paused state. -/
theorem c4_witness :
    submitAttestation sPaused 1 999 (Ciph.mk 9 true) = Except.error ContractError.PausedError ∧
    requestBatchValidation sPaused 1 999 1 7 = Except.error ContractError.PausedError ∧
    errOf (closeCurrentBatch sPaused 1 20) ≠ some ContractError.PausedError := by
  have h := c4_amended sPaused 1 999 1 7 5 2 3 (Ciph.mk 9 true) cl32 true rfl
  exact ⟨h.1 rfl, h.2.1 rfl, h.2.2.1⟩

/-- Claim C7 counterexample: immediately after closeCurrentBatch, a submit by
the owner-provider with all other gates passing succeeds and is recorded
against new batch 2, instead of failing with BatchNotActive. -/
theorem c7_counterexample :
    errOf (submitAttestation sClosed 1 70 (Ciph.mk 9 true)) = none ∧
    submitAttestation sClosed 1 70 (Ciph.mk 9 true) ≠ Except.error ContractError.BatchNotActive ∧
    eventsOf (submitAttestation sClosed 1 70 (Ciph.mk 9 true)) = [Event.AttestationSubmitted 1 2 9] := by
  refine ⟨rfl, ?_, rfl⟩
  intro hc
  have h2 : errOf (submitAttestation sClosed 1 70 (Ciph.mk 9 true)) = some ContractError.BatchNotActive := by
    rw [hc]
    rfl
  have h3 : errOf (submitAttestation sClosed 1 70 (Ciph.mk 9 true)) = none := rfl
  rw [h3] at h2
  exact Option.noConfusion h2

/-- Claim C7 (amended): a submit immediately following closeCurrentBatch (with
the other gates passing) does not fail with BatchNotActive: the close
atomically opened a new active batch and the submit succeeds, recorded against
that new batch. -/
theorem c7_amended (s s2 : ContractState) (sender now p now2 : Nat) (c : Ciph) (ev : List Event)
    (hclose : closeCurrentBatch s sender now = Except.ok (s2, ev))
    (hp : s2.isProvider p = true) (hpz : s2.paused = false)
    (hcd : s2.lastSubmissionTime p + s2.cooldownSeconds ≤ now2)
    (hc : c.initialized = true) :
    submitAttestation s2 p now2 c ≠ Except.error ContractError.BatchNotActive ∧
    eventsOf (submitAttestation s2 p now2 c) = [Event.AttestationSubmitted p (s.currentBatchId + 1) c.handle] := by
  obtain ⟨hcur, hbs, -⟩ := closeCurrentBatch_ok s sender now (s2, ev) hclose
  have hact : (s2.batches s2.currentBatchId).active = true := by
    rw [hcur, hbs, updF_same]
  have hne : ¬ now2 < s2.lastSubmissionTime p + s2.cooldownSeconds := Nat.not_lt.mpr hcd
  have hok : submitAttestation s2 p now2 c = Except.ok ({ s2 with lastSubmissionTime := updF s2.lastSubmissionTime p now2 }, [Event.AttestationSubmitted p s2.currentBatchId c.handle]) := by
    unfold submitAttestation
    rw [if_neg (by simp [hp]), if_neg (by simp [hpz]), if_neg hne, if_neg (by simp [hc])]
    simp only []
    rw [if_neg (by simp [hact])]
  constructor
  · rw [hok]
    intro hcon
    exact Except.noConfusion hcon
  · rw [hok]
    simp only [eventsOf]
    rw [show s2.currentBatchId = s.currentBatchId + 1 from hcur]

/-- Witness for C7 (amended) on the concrete close at time 10 followed by a
submit at time 75. -/
theorem c7_witness :
    submitAttestation sClosed 1 75 (Ciph.mk 8 true) ≠ Except.error ContractError.BatchNotActive ∧
    eventsOf (submitAttestation sClosed 1 75 (Ciph.mk 8 true)) = [Event.AttestationSubmitted 1 2 8] := by
  have h := c7_amended sInit sClosed 1 10 1 75 (Ciph.mk 8 true)
    [Event.BatchClosed 1 10, Event.BatchOpened 2 10] rfl rfl rfl (by decide) rfl
  exact ⟨h.1, h.2⟩

end AttestFHE
